import Mathlib

/-!
Verification of the loan-lifecycle and SHU-distribution core of the
koperasi back-office server.

Modelling conventions:
* Monetary amounts are embedded as exact rationals (`ℚ`); the TypeScript
  source computes transiently in IEEE doubles, and decimal literals such
  as `0.01` are modelled by the decimal rationals they denote.
* Timestamps (JS `Date` values) are embedded as `Int` milliseconds since
  the Unix epoch, UTC.
* Each request handler is embedded as a pure function; handlers that read
  and write the relational store take and return an explicit `DB` value,
  and fallible handlers return `Except String` carrying the thrown
  message.
-/

namespace Koperasi

/-- The `payment_status` enum of `db/schema.ts`. -/
inductive PaymentStatus
  | PENDING
  | PAID
  | LATE
  | MISSED
deriving DecidableEq, Repr

/-- The `loan_status` enum of `db/schema.ts`. -/
inductive LoanStatus
  | PENDING
  | APPROVED
  | REJECTED
  | ACTIVE
  | COMPLETED
  | OVERDUE
deriving DecidableEq, Repr

/-- The `user_status` enum of `db/schema.ts`. -/
inductive UserStatus
  | ACTIVE
  | INACTIVE
  | PENDING_VERIFICATION
  | SUSPENDED
deriving DecidableEq, Repr

/-- One entry of the `payment_schedule` array returned by
`calculateLoanSimulation` (`calculate_loan_simulation.ts`). -/
structure SimEntry where
  month : Nat
  principal : ℚ
  interest : ℚ
  total : ℚ
  remaining_balance : ℚ
deriving DecidableEq, Repr

/-- The `LoanSimulation` result record of `calculate_loan_simulation.ts`. -/
structure LoanSimulation where
  monthly_payment : ℚ
  total_payment : ℚ
  total_interest : ℚ
  payment_schedule : List SimEntry
deriving DecidableEq, Repr

/-- The monthly-payment computation of `calculateLoanSimulation`
(`calculate_loan_simulation.ts`, lines 25-33): zero-rate branch divides the
amount evenly, otherwise the standard annuity formula. -/
def simMonthlyPayment (amount monthlyRate : ℚ) (termMonths : Nat) : ℚ :=
  if monthlyRate = 0 then
    amount / termMonths
  else
    let factor := (1 + monthlyRate) ^ termMonths
    amount * (monthlyRate * factor) / (factor - 1)

/-- The schedule-generation loop of `calculateLoanSimulation`
(`calculate_loan_simulation.ts`, lines 39-68).  The first `Nat` argument is
the number of months still to emit (the loop runs while it is positive; the
final month is the one where it is about to reach zero), the second is the
current month number, and the `ℚ` argument is `remainingBalance`. -/
def simScheduleAux (monthlyRate monthlyPayment : ℚ) :
    Nat → Nat → ℚ → List SimEntry
  | 0, _, _ => []
  | k + 1, month, bal =>
    let interestPayment := bal * monthlyRate
    let principalPayment := monthlyPayment - interestPayment
    if k = 0 then
      [{ month := month, principal := bal, interest := interestPayment,
         total := bal + interestPayment, remaining_balance := 0 }]
    else
      { month := month, principal := principalPayment, interest := interestPayment,
        total := monthlyPayment, remaining_balance := bal - principalPayment }
        :: simScheduleAux monthlyRate monthlyPayment k (month + 1) (bal - principalPayment)

/-- Handler `calculateLoanSimulation` of `calculate_loan_simulation.ts`: the pure
amortization calculator exposed over RPC. -/
def calculateLoanSimulation (amount interestRate : ℚ) (termMonths : Nat) :
    LoanSimulation :=
  let monthlyRate := interestRate / 100 / 12
  let monthlyPayment := simMonthlyPayment amount monthlyRate termMonths
  let paymentSchedule := simScheduleAux monthlyRate monthlyPayment termMonths 1 amount
  let totalPayment := (paymentSchedule.map SimEntry.total).sum
  { monthly_payment := monthlyPayment
    total_payment := totalPayment
    total_interest := totalPayment - amount
    payment_schedule := paymentSchedule }

lemma simScheduleAux_length (monthlyRate monthlyPayment : ℚ) :
    ∀ (k month : Nat) (bal : ℚ),
      (simScheduleAux monthlyRate monthlyPayment k month bal).length = k := by
  intro k
  induction k with
  | zero => intro month bal; rfl
  | succ k ih =>
    intro month bal
    by_cases hk : k = 0
    · subst hk; simp [simScheduleAux]
    · simp [simScheduleAux, hk, ih]

lemma simScheduleAux_sum_principal (monthlyRate monthlyPayment : ℚ) :
    ∀ (k month : Nat) (bal : ℚ), 0 < k →
      ((simScheduleAux monthlyRate monthlyPayment k month bal).map
        SimEntry.principal).sum = bal := by
  intro k
  induction k with
  | zero => intro month bal h; exact absurd h (lt_irrefl 0)
  | succ k ih =>
    intro month bal _
    by_cases hk : k = 0
    · subst hk; simp [simScheduleAux]
    · have hpos : 0 < k := Nat.pos_of_ne_zero hk
      simp only [simScheduleAux, hk, if_false, List.map_cons, List.sum_cons]
      rw [ih (month + 1) _ hpos]
      ring

lemma simScheduleAux_getLast (monthlyRate monthlyPayment : ℚ) :
    ∀ (k month : Nat) (bal : ℚ), 0 < k →
      ∃ e, (simScheduleAux monthlyRate monthlyPayment k month bal).getLast?
            = some e ∧ e.remaining_balance = 0 := by
  intro k
  induction k with
  | zero => intro month bal h; exact absurd h (lt_irrefl 0)
  | succ k ih =>
    intro month bal _
    by_cases hk : k = 0
    · subst hk
      exact ⟨_, rfl, rfl⟩
    · have hpos : 0 < k := Nat.pos_of_ne_zero hk
      obtain ⟨e, he, hbal⟩ := ih (month + 1)
        (bal - (monthlyPayment - bal * monthlyRate)) hpos
      have hne : simScheduleAux monthlyRate monthlyPayment k (month + 1)
          (bal - (monthlyPayment - bal * monthlyRate)) ≠ [] := by
        intro hnil
        have hlen := simScheduleAux_length monthlyRate monthlyPayment k (month + 1)
          (bal - (monthlyPayment - bal * monthlyRate))
        rw [hnil] at hlen
        simp at hlen
        omega
      obtain ⟨y, ys, hys⟩ := List.exists_cons_of_ne_nil hne
      refine ⟨e, ?_, hbal⟩
      simp only [simScheduleAux, hk, if_false]
      rw [hys, List.getLast?_cons_cons]
      rw [hys] at he
      exact he

/-- Claim C1: for every principal > 0, annual rate ≥ 0 and term ≥ 1, the
amortization calculator's schedule has exactly `term` entries, the final
entry's remaining balance is 0 exactly, and the sum of the principal
portions equals the input principal (exactly, hence within 1e-6). -/
theorem amortization_schedule_correct (amount rate : ℚ) (term : Nat)
    (hamount : 0 < amount) (hrate : 0 ≤ rate) (hterm : 1 ≤ term) :
    (calculateLoanSimulation amount rate term).payment_schedule.length = term ∧
    (∃ e, (calculateLoanSimulation amount rate term).payment_schedule.getLast?
        = some e ∧ e.remaining_balance = 0) ∧
    ((calculateLoanSimulation amount rate term).payment_schedule.map
        SimEntry.principal).sum = amount ∧
    |((calculateLoanSimulation amount rate term).payment_schedule.map
        SimEntry.principal).sum - amount| ≤ 1 / 1000000 := by
  have hpos : 0 < term := hterm
  refine ⟨?_, ?_, ?_, ?_⟩
  · exact simScheduleAux_length _ _ term 1 amount
  · exact simScheduleAux_getLast _ _ term 1 amount hpos
  · exact simScheduleAux_sum_principal _ _ term 1 amount hpos
  · have hsum : ((calculateLoanSimulation amount rate term).payment_schedule.map
        SimEntry.principal).sum = amount :=
      simScheduleAux_sum_principal _ _ term 1 amount hpos
    rw [hsum]
    simp

/-- Witness for C1 at principal 10000, annual rate 12, term 12. -/
theorem amortization_schedule_correct_witness :
    (calculateLoanSimulation 10000 12 12).payment_schedule.length = 12 ∧
    (∃ e, (calculateLoanSimulation 10000 12 12).payment_schedule.getLast?
        = some e ∧ e.remaining_balance = 0) ∧
    ((calculateLoanSimulation 10000 12 12).payment_schedule.map
        SimEntry.principal).sum = 10000 ∧
    |((calculateLoanSimulation 10000 12 12).payment_schedule.map
        SimEntry.principal).sum - 10000| ≤ 1 / 1000000 :=
  amortization_schedule_correct 10000 12 12 (by norm_num) (by norm_num)
    (by norm_num)

/-- A row of `usersTable` (only the columns this core reads). -/
structure UserRec where
  id : Nat
  status : UserStatus
deriving DecidableEq, Repr

/-- A row of `savingsTable` (only the columns this core reads). -/
structure SavingsRec where
  id : Nat
  user_id : Nat
  amount : ℚ
  transaction_date : Int
deriving DecidableEq, Repr

/-- A row of `loansTable` (columns this core reads or writes). -/
structure Loan where
  id : Nat
  user_id : Nat
  amount : ℚ
  interest_rate : ℚ
  term_months : Nat
  monthly_payment : ℚ
  remaining_balance : ℚ
  status : LoanStatus
  applied_at : Int
  approved_at : Option Int
  approved_by : Option Nat
deriving DecidableEq, Repr

/-- A row of `paymentSchedulesTable`. -/
structure PaymentScheduleRow where
  loan_id : Nat
  installment_number : Nat
  due_date : Int
  principal_amount : ℚ
  interest_amount : ℚ
  total_amount : ℚ
  paid_amount : ℚ
  paid_date : Option Int
  status : PaymentStatus
  late_fee : ℚ
deriving DecidableEq, Repr

/-- A row of `shuCalculationsTable`. -/
structure SHUCalculationRec where
  id : Nat
  year : Int
  total_profit : ℚ
  member_share_percentage : ℚ
  total_member_share : ℚ
  calculated_by : Nat
  distributed : Bool
deriving DecidableEq, Repr

/-- A row of `shuDistributionsTable`. -/
structure SHUDistributionRec where
  shu_calculation_id : Nat
  user_id : Nat
  savings_contribution : ℚ
  loan_contribution : ℚ
  share_amount : ℚ
  distributed_at : Option Int
deriving DecidableEq, Repr

/-- The relational store, as the tables this core touches. -/
structure DB where
  users : List UserRec
  savings : List SavingsRec
  loans : List Loan
  paymentSchedules : List PaymentScheduleRow
  shuCalculations : List SHUCalculationRec
  shuDistributions : List SHUDistributionRec
deriving DecidableEq, Repr

/-- The `defaultInterestRate` constant of `create_loan.ts` (annual percent). -/
def defaultInterestRate : ℚ := 12

/-- The monthly-payment computation of `createLoan` (`create_loan.ts`,
lines 20-37), always at the default annual rate. -/
def createLoanMonthlyPayment (principal : ℚ) (numPayments : Nat) : ℚ :=
  let monthlyInterestRate := defaultInterestRate / 100 / 12
  if monthlyInterestRate = 0 then
    principal / numPayments
  else
    let denominator := (1 + monthlyInterestRate) ^ numPayments - 1
    let numerator := monthlyInterestRate * (1 + monthlyInterestRate) ^ numPayments
    principal * (numerator / denominator)

/-- Handler `createLoan` of `create_loan.ts`: verifies the user exists, then inserts
a PENDING loan whose `monthly_payment` and `remaining_balance` columns are
populated immediately (the table declares both NOT NULL). -/
def createLoan (db : DB) (newId user_id : Nat) (amount : ℚ)
    (term_months : Nat) (now : Int) : Except String (Loan × DB) :=
  if (db.users.filter (fun u => u.id = user_id)).isEmpty then
    .error s!"User with ID {user_id} not found"
  else
    let loan : Loan :=
      { id := newId, user_id := user_id, amount := amount
        interest_rate := defaultInterestRate, term_months := term_months
        monthly_payment := createLoanMonthlyPayment amount term_months
        remaining_balance := amount, status := .PENDING
        applied_at := now, approved_at := none, approved_by := none }
    .ok (loan, { db with loans := db.loans ++ [loan] })

/-- The interest-rate resolution of `approveLoan` (unnamed handler source,
`input.interest_rate || 12.0`): JavaScript `||` falls through to the 12%
default when the rate is absent, and also when it is the falsy number 0. -/
def resolveRate : Option ℚ → ℚ
  | none => 12
  | some r => if r = 0 then 12 else r

/-- The inlined annuity formula of `approveLoan` (no zero-rate branch,
unlike `calculateLoanSimulation`). -/
def approveMonthlyPayment (loanAmount monthlyInterestRate : ℚ)
    (termMonths : Nat) : ℚ :=
  loanAmount *
    (monthlyInterestRate * (1 + monthlyInterestRate) ^ termMonths) /
    ((1 + monthlyInterestRate) ^ termMonths - 1)

/-- The schedule-generation loop of `approveLoan`.  The first `Nat`
argument counts the months still to emit, the second is the installment
number `i`, the `ℚ` argument is `remainingPrincipal`; `dueDateOf i`
abstracts the JS calendar arithmetic `now.setMonth(now.getMonth() + i)`.
On the final month the principal is adjusted by adding back the remaining
principal after subtraction, so it absorbs the accumulated drift. -/
def approveScheduleAux (loanId : Nat) (dueDateOf : Nat → Int)
    (monthlyInterestRate monthlyPayment : ℚ) :
    Nat → Nat → ℚ → List PaymentScheduleRow
  | 0, _, _ => []
  | k + 1, i, remainingPrincipal =>
    let interestAmount := remainingPrincipal * monthlyInterestRate
    let principalAmount := monthlyPayment - interestAmount
    let newRemaining := remainingPrincipal - principalAmount
    let adjustedPrincipalAmount :=
      if k = 0 then principalAmount + newRemaining else principalAmount
    let adjustedTotalAmount :=
      if k = 0 then adjustedPrincipalAmount + interestAmount else monthlyPayment
    { loan_id := loanId, installment_number := i, due_date := dueDateOf i
      principal_amount := adjustedPrincipalAmount
      interest_amount := interestAmount
      total_amount := adjustedTotalAmount
      paid_amount := 0, paid_date := none
      status := .PENDING, late_fee := 0 }
      :: approveScheduleAux loanId dueDateOf monthlyInterestRate monthlyPayment
          k (i + 1) newRemaining

/-- Handler `approveLoan` of the unnamed handler source.  The source runs two
independent statements with no transaction: first the loan-row UPDATE,
then the bulk INSERT of the schedule.  `insertOk` injects the outcome of
that second statement; when it fails the thrown error propagates but the
already-executed UPDATE stays committed, which the returned `DB`
reflects.  Returns the handler result paired with the post-call store. -/
def approveLoan (db : DB) (loan_id : Nat) (approved : Bool)
    (rateArg : Option ℚ) (approvedBy : Nat) (now : Int)
    (dueDateOf : Nat → Int) (insertOk : Bool) : Except String Loan × DB :=
  match db.loans.filter (fun l => l.id = loan_id) with
  | [] => (.error "Loan not found", db)
  | existingLoan :: _ =>
    if existingLoan.status ≠ .PENDING then
      (.error "Loan is not pending approval", db)
    else if approved then
      let interestRate := resolveRate rateArg
      let monthlyInterestRate := interestRate / 100 / 12
      let monthlyPayment :=
        approveMonthlyPayment existingLoan.amount monthlyInterestRate
          existingLoan.term_months
      let updatedLoan := { existingLoan with
        status := .APPROVED, interest_rate := interestRate
        monthly_payment := monthlyPayment
        remaining_balance := existingLoan.amount
        approved_at := some now, approved_by := some approvedBy }
      let db1 := { db with
        loans := db.loans.map (fun l => if l.id = loan_id then updatedLoan else l) }
      let schedules :=
        approveScheduleAux loan_id dueDateOf monthlyInterestRate monthlyPayment
          existingLoan.term_months 1 existingLoan.amount
      if insertOk then
        (.ok updatedLoan,
          { db1 with paymentSchedules := db1.paymentSchedules ++ schedules })
      else
        (.error "schedule insert failed", db1)
    else
      let updatedLoan := { existingLoan with
        status := .REJECTED, approved_at := some now
        approved_by := some approvedBy }
      (.ok updatedLoan,
        { db with
          loans := db.loans.map (fun l => if l.id = loan_id then updatedLoan else l) })

/-- Milliseconds per day, `1000 * 60 * 60 * 24` in `process_payment.ts`. -/
def msPerDay : Int := 1000 * 60 * 60 * 24

/-- The expression `Math.ceil((today - dueDate) / (1000*60*60*24*30))` of
`process_payment.ts`, line 39. -/
def monthsOverdue (diffMs : Int) : Int :=
  ⌈(diffMs : ℚ) / ((msPerDay * 30 : Int) : ℚ)⌉

/-- Handler `processPayment` of `process_payment.ts`, as a pure function of the
fetched schedule row, the payment amount and the current time.  The late
fee is (re)computed only when the row is overdue, still PENDING and has
fee 0; the PAID threshold compares against `total_amount` alone. -/
def processPayment (s : PaymentScheduleRow) (amount : ℚ) (now : Int) :
    Except String PaymentScheduleRow :=
  if s.paid_amount ≥ s.total_amount then
    .error "Payment schedule is already fully paid"
  else
    let newPaidAmount := s.paid_amount + amount
    let lateFee :=
      if now > s.due_date ∧ s.status = .PENDING ∧ s.late_fee = 0 then
        s.total_amount * (1 / 100) * ((monthsOverdue (now - s.due_date) : ℚ))
      else s.late_fee
    let paidDate : Option Int :=
      if newPaidAmount ≥ s.total_amount then some now else none
    let newStatus : PaymentStatus :=
      if newPaidAmount ≥ s.total_amount then .PAID
      else if now > s.due_date then .LATE
      else .PENDING
    .ok { s with paid_amount := newPaidAmount, paid_date := paidDate
                 status := newStatus, late_fee := lateFee }

/-- Epoch milliseconds of Jan 1, 00:00 of year `y` (the JS
`new Date(y, 0, 1)` used by `calculate_shu.ts`, modelled in UTC), via the
standard civil-calendar day count. -/
def startOfYear (y : Int) : Int :=
  let yp := y - 1
  let era := Int.fdiv yp 400
  let yoe := yp - era * 400
  let doe := yoe * 365 + Int.fdiv yoe 4 - Int.fdiv yoe 100 + 306
  (era * 146097 + doe - 719468) * msPerDay

/-- The per-member savings aggregation of `calculateSHU`
(`calculate_shu.ts`, lines 34-44): savings rows with
`startDate <= transaction_date <= endDate`, grouped by user — note both
bounds are inclusive (`gte` / `lte`). -/
def shuSavingsContribution (savings : List SavingsRec) (u : Nat)
    (startDate endDate : Int) : ℚ :=
  ((savings.filter (fun s =>
      s.user_id = u ∧ startDate ≤ s.transaction_date ∧
        s.transaction_date ≤ endDate)).map SavingsRec.amount).sum

/-- The per-member loan aggregation of `calculateSHU`
(`calculate_shu.ts`, lines 47-57): loan rows with
`startDate <= applied_at <= endDate`, grouped by user; no loan-status
filter. -/
def shuLoanContribution (loans : List Loan) (u : Nat)
    (startDate endDate : Int) : ℚ :=
  ((loans.filter (fun l =>
      l.user_id = u ∧ startDate ≤ l.applied_at ∧
        l.applied_at ≤ endDate)).map Loan.amount).sum

/-- Total in-window savings across all users (the code folds over every
`groupBy` bucket, with no active-member restriction). -/
def shuWindowSavingsTotal (savings : List SavingsRec)
    (startDate endDate : Int) : ℚ :=
  ((savings.filter (fun s =>
      startDate ≤ s.transaction_date ∧ s.transaction_date ≤ endDate)).map
    SavingsRec.amount).sum

/-- Total in-window loan principal across all users. -/
def shuWindowLoanTotal (loans : List Loan) (startDate endDate : Int) : ℚ :=
  ((loans.filter (fun l =>
      startDate ≤ l.applied_at ∧ l.applied_at ≤ endDate)).map
    Loan.amount).sum

/-- The active-member enumeration used by `calculateSHU` and
`distributeSHU` (`where(eq(usersTable.status, 'ACTIVE'))`). -/
def activeMembers (db : DB) : List UserRec :=
  db.users.filter (fun u => u.status = UserStatus.ACTIVE)

/-- The `memberSharePercentage` constant of `calculate_shu.ts` (40%). -/
def memberSharePercentage : ℚ := 40

/-- Handler `calculateSHU` of `calculate_shu.ts`: rejects a duplicate year, checks
the calculator user, inserts the calculation row with `distributed=false`,
then inserts one provisional distribution row per active member whose
share blends the savings ratio and loan ratio 50/50 over the fiscal-year
window `[Jan 1 year, Jan 1 (year+1)]` (both ends inclusive, per the
`gte`/`lte` filters).  Returns the handler result paired with the
post-call store. -/
def calculateSHU (db : DB) (newCalcId : Nat) (year : Int) (totalProfit : ℚ)
    (calculatedBy : Nat) : Except String SHUCalculationRec × DB :=
  if ¬ (db.shuCalculations.filter (fun c => c.year = year)).isEmpty then
    (.error s!"SHU calculation for year {year} already exists", db)
  else if (db.users.filter (fun u => u.id = calculatedBy)).isEmpty then
    (.error "Calculator user not found", db)
  else
    let startDate := startOfYear year
    let endDate := startOfYear (year + 1)
    let totalSavingsAmount := shuWindowSavingsTotal db.savings startDate endDate
    let totalLoanAmount := shuWindowLoanTotal db.loans startDate endDate
    let totalMemberShare := totalProfit * (memberSharePercentage / 100)
    let calcRec : SHUCalculationRec :=
      { id := newCalcId, year := year, total_profit := totalProfit
        member_share_percentage := memberSharePercentage
        total_member_share := totalMemberShare
        calculated_by := calculatedBy, distributed := false }
    let rows := (activeMembers db).map (fun u =>
      let savingsContribution :=
        shuSavingsContribution db.savings u.id startDate endDate
      let loanContribution :=
        shuLoanContribution db.loans u.id startDate endDate
      let shareAmount :=
        totalMemberShare * (1 / 2) *
          (if 0 < totalSavingsAmount then savingsContribution / totalSavingsAmount else 0)
          + totalMemberShare * (1 / 2) *
            (if 0 < totalLoanAmount then loanContribution / totalLoanAmount else 0)
      { shu_calculation_id := newCalcId, user_id := u.id
        savings_contribution := savingsContribution
        loan_contribution := loanContribution
        share_amount := shareAmount
        distributed_at := none })
    (.ok calcRec,
      { db with
        shuCalculations := db.shuCalculations ++ [calcRec]
        shuDistributions := db.shuDistributions ++ rows })

/-- Lifetime savings of user `u` (the `savingsMap` of `distributeSHU`:
every savings row of the user, no date window). -/
def savingsOfUser (savings : List SavingsRec) (u : Nat) : ℚ :=
  ((savings.filter (fun s => s.user_id = u)).map SavingsRec.amount).sum

/-- Lifetime COMPLETED-loan principal of user `u` (the `loansMap` of
`distributeSHU`: loan rows with `status = 'COMPLETED'`, no date window). -/
def completedLoansOfUser (loans : List Loan) (u : Nat) : ℚ :=
  ((loans.filter (fun l =>
      l.user_id = u ∧ l.status = LoanStatus.COMPLETED)).map Loan.amount).sum

/-- A member's combined contribution in the `distributeSHU` sense. -/
def memberContribution (db : DB) (u : Nat) : ℚ :=
  savingsOfUser db.savings u + completedLoansOfUser db.loans u

/-- Handler `distributeSHU` of the unnamed handler source: requires the
calculation to exist and be undistributed and at least one active member;
emits one distribution row per active member, sharing
`total_member_share` by the member's fraction of the summed contributions
(equal split when the pool's total contribution is not positive), then
flips the `distributed` flag.  The source's per-bucket `groupBy` totals
equal the per-active-member sums used here because `users.id` is the
primary key and the buckets are joined to active users.  Returns the
handler result paired with the post-call store. -/
def distributeSHU (db : DB) (shuCalculationId : Nat) (now : Int) :
    Except String (List SHUDistributionRec) × DB :=
  match db.shuCalculations.filter (fun c => c.id = shuCalculationId) with
  | [] => (.error "SHU calculation not found", db)
  | calcRec :: _ =>
    if calcRec.distributed then
      (.error "SHU has already been distributed", db)
    else if (activeMembers db).isEmpty then
      (.error "No active members found for distribution", db)
    else
      let totalMemberShare := calcRec.total_member_share
      let totalContribution :=
        ((activeMembers db).map (fun m => memberContribution db m.id)).sum
      let rows := (activeMembers db).map (fun m =>
        let savingsContribution := savingsOfUser db.savings m.id
        let loanContribution := completedLoansOfUser db.loans m.id
        let shareAmount :=
          if 0 < totalContribution then
            totalMemberShare *
              ((savingsContribution + loanContribution) / totalContribution)
          else
            totalMemberShare / ((activeMembers db).length : ℚ)
        { shu_calculation_id := shuCalculationId, user_id := m.id
          savings_contribution := savingsContribution
          loan_contribution := loanContribution
          share_amount := shareAmount
          distributed_at := some now })
      (.ok rows,
        { db with
          shuDistributions := db.shuDistributions ++ rows
          shuCalculations := db.shuCalculations.map (fun c =>
            if c.id = shuCalculationId then { c with distributed := true } else c) })

lemma processPayment_eq (s : PaymentScheduleRow) (amount : ℚ) (now : Int)
    (h : ¬ s.paid_amount ≥ s.total_amount) :
    processPayment s amount now = .ok
      { s with
        paid_amount := s.paid_amount + amount
        paid_date :=
          if s.paid_amount + amount ≥ s.total_amount then some now else none
        status :=
          if s.paid_amount + amount ≥ s.total_amount then .PAID
          else if now > s.due_date then .LATE
          else .PENDING
        late_fee :=
          if now > s.due_date ∧ s.status = .PENDING ∧ s.late_fee = 0 then
            s.total_amount * (1 / 100) * ((monthsOverdue (now - s.due_date) : ℚ))
          else s.late_fee } := by
  unfold processPayment
  rw [if_neg h]

/-- Claim C4: two sequential payments of `a` then `b` on a fresh
installment accumulate to `a + b` without clamping; the resulting status
is PAID with a non-null paid date exactly when `a + b` reaches
`total_amount` (the late fee plays no part in the threshold), and below
the threshold it is LATE when past due and PENDING otherwise. -/
theorem processPayment_additive_and_threshold
    (s : PaymentScheduleRow) (a b : ℚ) (t1 t2 : Int)
    (h0 : s.paid_amount = 0) (hpos : 0 < s.total_amount)
    (ha : a < s.total_amount) :
    ∃ r2, (processPayment s a t1).bind (fun r1 => processPayment r1 b t2)
        = .ok r2 ∧
      r2.paid_amount = a + b ∧
      r2.total_amount = s.total_amount ∧
      (s.total_amount ≤ a + b →
        r2.status = PaymentStatus.PAID ∧ r2.paid_date = some t2) ∧
      (a + b < s.total_amount → s.due_date < t2 →
        r2.status = PaymentStatus.LATE) ∧
      (a + b < s.total_amount → ¬ s.due_date < t2 →
        r2.status = PaymentStatus.PENDING) := by
  have hc1 : ¬ s.paid_amount ≥ s.total_amount := by
    rw [h0]; exact not_le.mpr hpos
  have hc2 : ¬ s.paid_amount + a ≥ s.total_amount := by
    rw [h0, zero_add]; exact not_le.mpr ha
  rw [processPayment_eq s a t1 hc1]
  simp only [Except.bind]
  rw [processPayment_eq _ b t2 (by simpa using hc2)]
  refine ⟨_, rfl, ?_, rfl, ?_, ?_, ?_⟩
  · show s.paid_amount + a + b = a + b
    rw [h0, zero_add]
  · intro hfull
    have hcond : s.paid_amount + a + b ≥ s.total_amount := by
      rw [h0, zero_add]; exact hfull
    constructor
    · show (if s.paid_amount + a + b ≥ s.total_amount then PaymentStatus.PAID
        else if t2 > s.due_date then PaymentStatus.LATE
        else PaymentStatus.PENDING) = PaymentStatus.PAID
      rw [if_pos hcond]
    · show (if s.paid_amount + a + b ≥ s.total_amount then some t2 else none)
        = some t2
      rw [if_pos hcond]
  · intro hlt hdue
    have hcond : ¬ s.paid_amount + a + b ≥ s.total_amount := by
      rw [h0, zero_add]; exact not_le.mpr hlt
    show (if s.paid_amount + a + b ≥ s.total_amount then PaymentStatus.PAID
      else if t2 > s.due_date then PaymentStatus.LATE
      else PaymentStatus.PENDING) = PaymentStatus.LATE
    rw [if_neg hcond, if_pos hdue]
  · intro hlt hdue
    have hcond : ¬ s.paid_amount + a + b ≥ s.total_amount := by
      rw [h0, zero_add]; exact not_le.mpr hlt
    show (if s.paid_amount + a + b ≥ s.total_amount then PaymentStatus.PAID
      else if t2 > s.due_date then PaymentStatus.LATE
      else PaymentStatus.PENDING) = PaymentStatus.PENDING
    rw [if_neg hcond, if_neg hdue]

/-- Demo installment row: 800 principal + 100 interest due at epoch 0. -/
def demoRow : PaymentScheduleRow :=
  { loan_id := 1, installment_number := 1, due_date := 0
    principal_amount := 800, interest_amount := 100, total_amount := 900
    paid_amount := 0, paid_date := none, status := .PENDING, late_fee := 0 }

/-- Witness for C4: payments of 400 then 500 on a fresh 900-due row. -/
theorem processPayment_additive_and_threshold_witness :
    ∃ r2, (processPayment demoRow 400 (-5)).bind
        (fun r1 => processPayment r1 500 (-1)) = .ok r2 ∧
      r2.paid_amount = 400 + 500 ∧
      r2.total_amount = demoRow.total_amount ∧
      (demoRow.total_amount ≤ 400 + 500 →
        r2.status = PaymentStatus.PAID ∧ r2.paid_date = some (-1)) ∧
      (400 + 500 < demoRow.total_amount → demoRow.due_date < -1 →
        r2.status = PaymentStatus.LATE) ∧
      (400 + 500 < demoRow.total_amount → ¬ demoRow.due_date < -1 →
        r2.status = PaymentStatus.PENDING) :=
  processPayment_additive_and_threshold demoRow 400 500 (-5) (-1) rfl
    (by norm_num [demoRow]) (by norm_num [demoRow])

/-- Claim C5: a late fee of `total · 1% · ceil(daysOverdue / 30)` is
assigned exactly when the call finds the row past due, still PENDING and
with fee 0; in every other situation (in particular whenever a nonzero
fee is already recorded) the stored fee is left unchanged. -/
theorem processPayment_late_fee_once
    (s : PaymentScheduleRow) (amount : ℚ) (now : Int)
    (hopen : s.paid_amount < s.total_amount) :
    ∃ r, processPayment s amount now = .ok r ∧
      (s.due_date < now ∧ s.status = PaymentStatus.PENDING ∧ s.late_fee = 0 →
        r.late_fee = s.total_amount * (1 / 100) *
          ((monthsOverdue (now - s.due_date) : ℚ))) ∧
      (¬ (s.due_date < now ∧ s.status = PaymentStatus.PENDING ∧
            s.late_fee = 0) → r.late_fee = s.late_fee) ∧
      (s.late_fee ≠ 0 → r.late_fee = s.late_fee) := by
  have hc : ¬ s.paid_amount ≥ s.total_amount := not_le.mpr hopen
  rw [processPayment_eq s amount now hc]
  refine ⟨_, rfl, ?_, ?_, ?_⟩
  · intro h
    show (if now > s.due_date ∧ s.status = PaymentStatus.PENDING ∧
        s.late_fee = 0 then
        s.total_amount * (1 / 100) * ((monthsOverdue (now - s.due_date) : ℚ))
      else s.late_fee) = s.total_amount * (1 / 100) *
        ((monthsOverdue (now - s.due_date) : ℚ))
    rw [if_pos h]
  · intro h
    show (if now > s.due_date ∧ s.status = PaymentStatus.PENDING ∧
        s.late_fee = 0 then
        s.total_amount * (1 / 100) * ((monthsOverdue (now - s.due_date) : ℚ))
      else s.late_fee) = s.late_fee
    rw [if_neg h]
  · intro hne
    show (if now > s.due_date ∧ s.status = PaymentStatus.PENDING ∧
        s.late_fee = 0 then
        s.total_amount * (1 / 100) * ((monthsOverdue (now - s.due_date) : ℚ))
      else s.late_fee) = s.late_fee
    rw [if_neg fun hcond => hne hcond.2.2]

/-- Witness for C5: full payment on the 900-due row 60 days past due; the
assigned fee is 900 · 1% · 2 = 18, matching the specification example. -/
theorem processPayment_late_fee_once_witness :
    (∃ r, processPayment demoRow 900 5184000000 = .ok r ∧
      (demoRow.due_date < 5184000000 ∧
          demoRow.status = PaymentStatus.PENDING ∧ demoRow.late_fee = 0 →
        r.late_fee = demoRow.total_amount * (1 / 100) *
          ((monthsOverdue (5184000000 - demoRow.due_date) : ℚ))) ∧
      (¬ (demoRow.due_date < 5184000000 ∧
          demoRow.status = PaymentStatus.PENDING ∧ demoRow.late_fee = 0) →
        r.late_fee = demoRow.late_fee) ∧
      (demoRow.late_fee ≠ 0 → r.late_fee = demoRow.late_fee)) ∧
    demoRow.total_amount * (1 / 100) *
      ((monthsOverdue (5184000000 - demoRow.due_date) : ℚ)) = 18 :=
  ⟨processPayment_late_fee_once demoRow 900 5184000000 (by norm_num [demoRow]),
   by norm_num [demoRow, monthsOverdue, msPerDay]⟩

lemma resolveRate_ne_zero (o : Option ℚ) : resolveRate o ≠ 0 := by
  cases o with
  | none => norm_num [resolveRate]
  | some r =>
    by_cases h : r = 0
    · subst h; norm_num [resolveRate]
    · simp [resolveRate, h]

/-- Claim C10: the resolved annual rate is strictly positive for every
validated `approveLoan` input (the input schema requires a provided rate
to be positive, and an explicit 0 is falsy in JS so it falls through to
the 12% default), hence the annuity denominator `(1+r)^n − 1` of the
inlined payment formula is nonzero. -/
theorem approveLoan_resolved_rate_safe (rateArg : Option ℚ) (n : Nat)
    (hval : ∀ r, rateArg = some r → 0 < r) (hn : 1 ≤ n) :
    0 < resolveRate rateArg ∧
    (1 + resolveRate rateArg / 100 / 12) ^ n - 1 ≠ 0 ∧
    resolveRate (some 0) = 12 := by
  have hpos : 0 < resolveRate rateArg := by
    cases rateArg with
    | none => norm_num [resolveRate]
    | some r =>
      have hr := hval r rfl
      simp only [resolveRate]
      rw [if_neg (ne_of_gt hr)]
      exact hr
  refine ⟨hpos, ?_, by norm_num [resolveRate]⟩
  have hmr : 0 < resolveRate rateArg / 100 / 12 := by positivity
  have hgt : 1 < (1 + resolveRate rateArg / 100 / 12) ^ n :=
    one_lt_pow₀ (by linarith) (by omega)
  exact sub_ne_zero_of_ne (ne_of_gt hgt)

/-- Witness for C10 at a provided rate of 5 and a 12-month term. -/
theorem approveLoan_resolved_rate_safe_witness :
    0 < resolveRate (some 5) ∧
    (1 + resolveRate (some 5) / 100 / 12) ^ 12 - 1 ≠ 0 ∧
    resolveRate (some 0) = 12 :=
  approveLoan_resolved_rate_safe (some 5) 12
    (by intro r hr; cases hr; norm_num) (by norm_num)

lemma approveScheduleAux_matches_sim (loanId : Nat) (dueDateOf : Nat → Int)
    (mr pmt : ℚ) :
    ∀ (k i : Nat) (bal : ℚ),
      (approveScheduleAux loanId dueDateOf mr pmt k i bal).map
          (fun r => (r.principal_amount, r.interest_amount))
        = (simScheduleAux mr pmt k i bal).map
          (fun e => (e.principal, e.interest)) := by
  intro k
  induction k with
  | zero => intro i bal; rfl
  | succ k ih =>
    intro i bal
    by_cases hk : k = 0
    · subst hk
      simp only [approveScheduleAux, simScheduleAux, if_true, ite_true,
        List.map_cons, List.map_nil, List.cons.injEq, Prod.mk.injEq,
        and_true]
      ring
    · simp only [approveScheduleAux, simScheduleAux, hk, if_false,
        List.map_cons]
      rw [ih]

lemma simMonthlyPayment_eq_approve (amount rate : ℚ) (n : Nat)
    (h : rate ≠ 0) :
    simMonthlyPayment amount (rate / 100 / 12) n
      = approveMonthlyPayment amount (rate / 100 / 12) n := by
  have h100 : rate / 100 ≠ 0 := div_ne_zero h (by norm_num)
  have hmr : rate / 100 / 12 ≠ 0 := div_ne_zero h100 (by norm_num)
  unfold simMonthlyPayment approveMonthlyPayment
  rw [if_neg hmr]

/-- Claim C6: on approval the resolved rate is the provided one (12%
default when absent), and the principal and interest amounts of the
persisted installments coincide with the schedule the amortization
calculator (`calculateLoanSimulation`) produces for
(loan principal, resolved rate, loan term). -/
theorem approveLoan_schedule_refines_simulation
    (db : DB) (lid : Nat) (rateArg : Option ℚ) (apBy : Nat) (now : Int)
    (dueDateOf : Nat → Int) (l : Loan) (ls : List Loan)
    (hFind : db.loans.filter (fun x => x.id = lid) = l :: ls)
    (hPend : l.status = LoanStatus.PENDING)
    (hval : ∀ r, rateArg = some r → 0 < r) :
    resolveRate rateArg = rateArg.getD 12 ∧
    ((approveLoan db lid true rateArg apBy now dueDateOf
          true).2.paymentSchedules.drop db.paymentSchedules.length).map
        (fun r => (r.principal_amount, r.interest_amount))
      = (calculateLoanSimulation l.amount (resolveRate rateArg)
          l.term_months).payment_schedule.map
          (fun e => (e.principal, e.interest)) := by
  constructor
  · cases rateArg with
    | none => rfl
    | some r =>
      have hr := hval r rfl
      simp only [resolveRate, Option.getD_some]
      rw [if_neg (ne_of_gt hr)]
  · unfold approveLoan
    rw [hFind]
    simp only [hPend, ne_eq, not_true_eq_false, if_false, ite_true,
      if_true, List.drop_left]
    rw [approveScheduleAux_matches_sim]
    simp only [calculateLoanSimulation]
    rw [simMonthlyPayment_eq_approve l.amount (resolveRate rateArg)
      l.term_months (resolveRate_ne_zero rateArg)]

/-- A pending 1200-unit, 3-month loan and a store holding it. -/
def loanP : Loan :=
  { id := 1, user_id := 1, amount := 1200, interest_rate := 12
    term_months := 3, monthly_payment := 0, remaining_balance := 1200
    status := .PENDING, applied_at := 0, approved_at := none
    approved_by := none }

/-- A store with one active user and one pending loan. -/
def dbP : DB :=
  { users := [{ id := 1, status := .ACTIVE }], savings := []
    loans := [loanP], paymentSchedules := [], shuCalculations := []
    shuDistributions := [] }

/-- Witness for C6: approving the pending 3-month loan at a provided 12%
rate. -/
theorem approveLoan_schedule_refines_simulation_witness :
    resolveRate (some 12) = (some (12 : ℚ)).getD 12 ∧
    ((approveLoan dbP 1 true (some 12) 2 0 (fun i => (i : Int))
          true).2.paymentSchedules.drop dbP.paymentSchedules.length).map
        (fun r => (r.principal_amount, r.interest_amount))
      = (calculateLoanSimulation loanP.amount (resolveRate (some 12))
          loanP.term_months).payment_schedule.map
          (fun e => (e.principal, e.interest)) :=
  approveLoan_schedule_refines_simulation dbP 1 (some 12) 2 0
    (fun i => (i : Int)) loanP [] (by decide) (by decide)
    (by intro r hr; cases hr; norm_num)

/-- Claim C2 (failing input): approving the pending loan of `dbP` when
the schedule bulk-insert statement fails.  The source executes the
loan-row UPDATE and the installment INSERT as two independent statements
with no enclosing transaction, so the failed call leaves the loan
committed as APPROVED with zero installments — it does not remain
PENDING as the specified transactional boundary requires. -/
theorem approveLoan_insert_failure_leaves_loan_approved :
    (approveLoan dbP 1 true none 2 0 (fun i => (i : Int)) false).1
        = .error "schedule insert failed" ∧
    ((approveLoan dbP 1 true none 2 0 (fun i => (i : Int))
        false).2.loans.map Loan.status) = [LoanStatus.APPROVED] ∧
    (approveLoan dbP 1 true none 2 0 (fun i => (i : Int))
        false).2.paymentSchedules = [] :=
  ⟨rfl, rfl, rfl⟩

lemma createLoanMonthlyPayment_pos (amount : ℚ) (term : Nat)
    (ha : 0 < amount) (ht : 1 ≤ term) :
    0 < createLoanMonthlyPayment amount term := by
  simp only [createLoanMonthlyPayment, defaultInterestRate]
  rw [if_neg (by norm_num)]
  have hpow : 1 < ((1 : ℚ) + 12 / 100 / 12) ^ term :=
    one_lt_pow₀ (by norm_num) (by omega)
  have hd : 0 < ((1 : ℚ) + 12 / 100 / 12) ^ term - 1 := by linarith
  have hnum : 0 < (12 : ℚ) / 100 / 12 * (1 + 12 / 100 / 12) ^ term := by
    positivity
  exact mul_pos ha (div_pos hnum hd)

/-- The loan row `createLoan` inserts for user 1, amount 10000, term 12:
both derived columns are populated at creation time. -/
def loanC9 : Loan :=
  { id := 2, user_id := 1, amount := 10000
    interest_rate := defaultInterestRate, term_months := 12
    monthly_payment := createLoanMonthlyPayment 10000 12
    remaining_balance := 10000, status := .PENDING, applied_at := 0
    approved_at := none, approved_by := none }

/-- Claim C9 (counterexample): `createLoan` does NOT leave
`monthly_payment` and `remaining_balance` unset until approval — the
inserted PENDING row already carries a nonzero default-rate monthly
payment and a remaining balance equal to the principal. -/
theorem createLoan_populates_derived_fields_at_creation :
    createLoan dbP 2 1 10000 12 0
        = .ok (loanC9, { dbP with loans := dbP.loans ++ [loanC9] }) ∧
    loanC9.status = LoanStatus.PENDING ∧
    loanC9.monthly_payment ≠ 0 ∧
    loanC9.remaining_balance = 10000 := by
  refine ⟨rfl, rfl, ?_, rfl⟩
  have := createLoanMonthlyPayment_pos 10000 12 (by norm_num) (by norm_num)
  exact ne_of_gt this

/-- Claim C9 (amended): `createLoan` populates `monthly_payment` (with
the positive default-12%-rate annuity payment) and `remaining_balance`
(= principal) already at creation, on the PENDING row; on approval,
`approveLoan` sets `remaining_balance` equal to the loan's principal. -/
theorem loan_derived_fields_lifecycle
    (db : DB) (newId uid term : Nat) (amount : ℚ) (now : Int)
    (hUser : ¬ (db.users.filter (fun u => u.id = uid)).isEmpty)
    (hamount : 0 < amount) (hterm : 1 ≤ term)
    (db' : DB) (lid apBy : Nat) (rateArg : Option ℚ) (now' : Int)
    (dueDateOf : Nat → Int) (l : Loan) (ls : List Loan)
    (hFind : db'.loans.filter (fun x => x.id = lid) = l :: ls)
    (hPend : l.status = LoanStatus.PENDING) :
    (∃ loan db2, createLoan db newId uid amount term now = .ok (loan, db2) ∧
      loan.status = LoanStatus.PENDING ∧
      loan.remaining_balance = amount ∧
      0 < loan.monthly_payment) ∧
    (∃ upd, (approveLoan db' lid true rateArg apBy now' dueDateOf true).1
        = .ok upd ∧
      upd.status = LoanStatus.APPROVED ∧
      upd.remaining_balance = l.amount) := by
  constructor
  · have hloan :
        createLoan db newId uid amount term now = .ok
          ({ id := newId, user_id := uid, amount := amount,
             interest_rate := defaultInterestRate, term_months := term,
             monthly_payment := createLoanMonthlyPayment amount term,
             remaining_balance := amount, status := .PENDING,
             applied_at := now, approved_at := none,
             approved_by := none },
           { db with loans := db.loans ++
              [{ id := newId, user_id := uid, amount := amount,
                 interest_rate := defaultInterestRate, term_months := term,
                 monthly_payment := createLoanMonthlyPayment amount term,
                 remaining_balance := amount, status := .PENDING,
                 applied_at := now, approved_at := none,
                 approved_by := none }] }) := by
      unfold createLoan
      rw [if_neg hUser]
    exact ⟨_, _, hloan, rfl, rfl,
      createLoanMonthlyPayment_pos amount term hamount hterm⟩
  · have hup :
        (approveLoan db' lid true rateArg apBy now' dueDateOf true).1 = .ok
          { l with
            status := .APPROVED,
            interest_rate := resolveRate rateArg,
            monthly_payment := approveMonthlyPayment l.amount
              (resolveRate rateArg / 100 / 12) l.term_months,
            remaining_balance := l.amount,
            approved_at := some now',
            approved_by := some apBy } := by
      unfold approveLoan
      rw [hFind]
      simp only [hPend, ne_eq, not_true_eq_false, if_false, ite_true,
        if_true]
    exact ⟨_, hup, rfl, rfl⟩

/-- Witness for the amended C9 on the concrete store `dbP`. -/
theorem loan_derived_fields_lifecycle_witness :
    (∃ loan db2, createLoan dbP 2 1 10000 12 0 = .ok (loan, db2) ∧
      loan.status = LoanStatus.PENDING ∧
      loan.remaining_balance = 10000 ∧
      0 < loan.monthly_payment) ∧
    (∃ upd, (approveLoan dbP 1 true none 2 0 (fun i => (i : Int)) true).1
        = .ok upd ∧
      upd.status = LoanStatus.APPROVED ∧
      upd.remaining_balance = loanP.amount) :=
  loan_derived_fields_lifecycle dbP 2 1 12 10000 0 (by decide)
    (by norm_num) (by norm_num) dbP 1 2 none 0 (fun i => (i : Int))
    loanP [] (by decide) (by decide)

/-- Modelled from the spec: the phrase "falls within the fiscal year
being calculated" — from the first instant of Jan 1 of the year up to,
but excluding, the first instant of Jan 1 of the next year. -/
def inFiscalYear (y t : Int) : Prop :=
  startOfYear y ≤ t ∧ t < startOfYear (y + 1)

/-- A savings deposit stamped at the exact first instant of 2024. -/
def boundaryDeposit : SavingsRec :=
  { id := 1, user_id := 1, amount := 5
    transaction_date := startOfYear 2024 }

/-- Claim C7 (counterexample): a deposit stamped at the first instant of
Jan 1 2024 does not fall within fiscal year 2023, yet `calculateSHU`'s
window filter (`lte` against Jan 1 of the next year) counts it toward
the member's 2023 savings contribution. -/
theorem shu_window_counts_next_year_boundary :
    shuSavingsContribution [boundaryDeposit] 1 (startOfYear 2023)
        (startOfYear 2024) = 5 ∧
    ¬ inFiscalYear 2023 boundaryDeposit.transaction_date := by
  constructor
  · unfold shuSavingsContribution
    rw [List.filter_cons_of_pos (by decide)]
    simp [boundaryDeposit]
  · intro h
    exact absurd h.2 (by decide)

/-- Claim C7 (amended): `calculateSHU` counts a savings deposit toward a
member's savings contribution, and a loan of any status toward the loan
contribution, exactly when the transaction (resp. application) date lies
in the inclusive window from Jan 1 of the year through Jan 1 of the next
year — the fiscal year plus the following year's first instant — and
contributions accumulate record by record. -/
theorem shu_contribution_window_characterization
    (s : SavingsRec) (rest : List SavingsRec) (l : Loan)
    (lrest : List Loan) (u : Nat) (y : Int) :
    shuSavingsContribution (s :: rest) u (startOfYear y)
        (startOfYear (y + 1))
      = (if s.user_id = u ∧ startOfYear y ≤ s.transaction_date ∧
            s.transaction_date ≤ startOfYear (y + 1)
         then s.amount else 0)
        + shuSavingsContribution rest u (startOfYear y)
            (startOfYear (y + 1)) ∧
    shuLoanContribution (l :: lrest) u (startOfYear y)
        (startOfYear (y + 1))
      = (if l.user_id = u ∧ startOfYear y ≤ l.applied_at ∧
            l.applied_at ≤ startOfYear (y + 1)
         then l.amount else 0)
        + shuLoanContribution lrest u (startOfYear y)
            (startOfYear (y + 1)) := by
  constructor
  · simp only [shuSavingsContribution, List.filter_cons]
    by_cases h : s.user_id = u ∧ startOfYear y ≤ s.transaction_date ∧
        s.transaction_date ≤ startOfYear (y + 1)
    · simp [h]
    · simp [h]
  · simp only [shuLoanContribution, List.filter_cons]
    by_cases h : l.user_id = u ∧ startOfYear y ≤ l.applied_at ∧
        l.applied_at ≤ startOfYear (y + 1)
    · simp [h]
    · simp [h]

/-- Claim C8: re-running either year-end SHU operation fails with the
conflict error and leaves the store untouched — a second `calculateSHU`
for a year that already has a calculation row, and a second
`distributeSHU` on a calculation already flagged `distributed`. -/
theorem shu_rerun_conflicts
    (db : DB) (newCalcId : Nat) (y : Int) (p : ℚ) (b : Nat)
    (cid : Nat) (c : SHUCalculationRec) (cs : List SHUCalculationRec)
    (now : Int)
    (hyear : ¬ (db.shuCalculations.filter (fun x => x.year = y)).isEmpty)
    (hfind : db.shuCalculations.filter (fun x => x.id = cid) = c :: cs)
    (hdist : c.distributed = true) :
    calculateSHU db newCalcId y p b
      = (.error s!"SHU calculation for year {y} already exists", db) ∧
    distributeSHU db cid now
      = (.error "SHU has already been distributed", db) := by
  constructor
  · unfold calculateSHU
    rw [if_pos hyear]
  · unfold distributeSHU
    rw [hfind]
    simp [hdist]

/-- The fiscal year used by the concrete C8 store. -/
def yearW : Int := 2023

/-- A calculation row for `yearW` that is already distributed. -/
def calcW : SHUCalculationRec :=
  { id := 7, year := yearW, total_profit := 1000
    member_share_percentage := 40, total_member_share := 400
    calculated_by := 1, distributed := true }

/-- A store that already holds the distributed `calcW`. -/
def dbW : DB :=
  { users := [{ id := 1, status := .ACTIVE }], savings := [], loans := []
    paymentSchedules := [], shuCalculations := [calcW]
    shuDistributions := [] }

/-- Witness for C8 on the concrete store `dbW`. -/
theorem shu_rerun_conflicts_witness :
    calculateSHU dbW 9 yearW 1000 1
      = (.error s!"SHU calculation for year {yearW} already exists", dbW) ∧
    distributeSHU dbW 7 0
      = (.error "SHU has already been distributed", dbW) :=
  shu_rerun_conflicts dbW 9 yearW 1000 1 7 calcW [] 0 (by decide)
    (by decide) rfl

lemma sum_map_mul {α : Type} (L : List α) (r : ℚ) (f : α → ℚ) :
    (L.map fun a => r * f a).sum = r * (L.map f).sum := by
  induction L with
  | nil => simp
  | cons a t ih => simp [ih, mul_add]

/-- Claim C3: under `distributeSHU`'s preconditions a single call emits
exactly one row per active member, the emitted share amounts sum exactly
to the calculation's `total_member_share`, and when every active member
has zero contribution each of the `n` members receives exactly
`total_member_share / n`. -/
theorem distributeSHU_shares_sum_to_total
    (db : DB) (cid : Nat) (now : Int)
    (c : SHUCalculationRec) (cs : List SHUCalculationRec)
    (hfind : db.shuCalculations.filter (fun x => x.id = cid) = c :: cs)
    (hnd : c.distributed = false)
    (hmem : ¬ (activeMembers db).isEmpty) :
    ∃ rows db2, distributeSHU db cid now = (.ok rows, db2) ∧
      rows.length = (activeMembers db).length ∧
      rows.map SHUDistributionRec.user_id
        = (activeMembers db).map UserRec.id ∧
      (rows.map SHUDistributionRec.share_amount).sum
        = c.total_member_share ∧
      ((∀ m ∈ activeMembers db, memberContribution db m.id = 0) →
        ∀ r ∈ rows, r.share_amount
          = c.total_member_share / ((activeMembers db).length : ℚ)) := by
  have hlen : (activeMembers db).length ≠ 0 := by
    intro h0
    exact hmem (List.isEmpty_iff_length_eq_zero.mpr h0)
  have hcast : ((activeMembers db).length : ℚ) ≠ 0 := by
    exact_mod_cast hlen
  have hrun : distributeSHU db cid now = (.ok ((activeMembers db).map
      (fun m =>
        { shu_calculation_id := cid, user_id := m.id
          savings_contribution := savingsOfUser db.savings m.id
          loan_contribution := completedLoansOfUser db.loans m.id
          share_amount :=
            if 0 < ((activeMembers db).map
                (fun x => memberContribution db x.id)).sum then
              c.total_member_share *
                ((savingsOfUser db.savings m.id +
                    completedLoansOfUser db.loans m.id) /
                  ((activeMembers db).map
                    (fun x => memberContribution db x.id)).sum)
            else
              c.total_member_share / ((activeMembers db).length : ℚ)
          distributed_at := some now })),
      { db with
        shuDistributions := db.shuDistributions ++ (activeMembers db).map
          (fun m =>
            { shu_calculation_id := cid, user_id := m.id
              savings_contribution := savingsOfUser db.savings m.id
              loan_contribution := completedLoansOfUser db.loans m.id
              share_amount :=
                if 0 < ((activeMembers db).map
                    (fun x => memberContribution db x.id)).sum then
                  c.total_member_share *
                    ((savingsOfUser db.savings m.id +
                        completedLoansOfUser db.loans m.id) /
                      ((activeMembers db).map
                        (fun x => memberContribution db x.id)).sum)
                else
                  c.total_member_share / ((activeMembers db).length : ℚ)
              distributed_at := some now })
        shuCalculations := db.shuCalculations.map (fun x =>
          if x.id = cid then { x with distributed := true } else x) }) := by
    unfold distributeSHU
    rw [hfind]
    simp [hnd, hmem]
  refine ⟨_, _, hrun, ?_, ?_, ?_, ?_⟩
  · simp
  · rw [List.map_map]
    rfl
  · rw [List.map_map]
    by_cases hT : 0 < ((activeMembers db).map
        (fun x => memberContribution db x.id)).sum
    · have hfun : ((fun r => SHUDistributionRec.share_amount r) ∘
          (fun m : UserRec =>
            ({ shu_calculation_id := cid, user_id := m.id
               savings_contribution := savingsOfUser db.savings m.id
               loan_contribution := completedLoansOfUser db.loans m.id
               share_amount :=
                 if 0 < ((activeMembers db).map
                     (fun x => memberContribution db x.id)).sum then
                   c.total_member_share *
                     ((savingsOfUser db.savings m.id +
                         completedLoansOfUser db.loans m.id) /
                       ((activeMembers db).map
                         (fun x => memberContribution db x.id)).sum)
                 else
                   c.total_member_share / ((activeMembers db).length : ℚ)
               distributed_at := some now } : SHUDistributionRec)))
          = fun m : UserRec => c.total_member_share /
              ((activeMembers db).map
                (fun x => memberContribution db x.id)).sum *
              memberContribution db m.id := by
        funext m
        simp only [Function.comp_apply, if_pos hT]
        unfold memberContribution
        ring
      rw [hfun, sum_map_mul]
      rw [div_mul_cancel₀ _ (ne_of_gt hT)]
    · have hfun : ((fun r => SHUDistributionRec.share_amount r) ∘
          (fun m : UserRec =>
            ({ shu_calculation_id := cid, user_id := m.id
               savings_contribution := savingsOfUser db.savings m.id
               loan_contribution := completedLoansOfUser db.loans m.id
               share_amount :=
                 if 0 < ((activeMembers db).map
                     (fun x => memberContribution db x.id)).sum then
                   c.total_member_share *
                     ((savingsOfUser db.savings m.id +
                         completedLoansOfUser db.loans m.id) /
                       ((activeMembers db).map
                         (fun x => memberContribution db x.id)).sum)
                 else
                   c.total_member_share / ((activeMembers db).length : ℚ)
               distributed_at := some now } : SHUDistributionRec)))
          = fun _ : UserRec => c.total_member_share /
              ((activeMembers db).length : ℚ) := by
        funext m
        simp only [Function.comp_apply, if_neg hT]
      rw [hfun]
      rw [List.map_const']
      rw [List.sum_replicate, nsmul_eq_mul]
      field_simp
  · intro hz r hr
    obtain ⟨m, hm, hrm⟩ := List.mem_map.mp hr
    have hT0 : ((activeMembers db).map
        (fun x => memberContribution db x.id)).sum = 0 := by
      apply List.sum_eq_zero
      intro q hq
      obtain ⟨x, hx, hxx⟩ := List.mem_map.mp hq
      rw [← hxx]
      exact hz x hx
    have hnT : ¬ 0 < ((activeMembers db).map
        (fun x => memberContribution db x.id)).sum := by
      rw [hT0]
      exact lt_irrefl 0
    rw [← hrm]
    simp only [if_neg hnT]

/-- A calculation row not yet distributed, worth 100 to the members. -/
def calcD : SHUCalculationRec :=
  { id := 1, year := 2022, total_profit := 250
    member_share_percentage := 40, total_member_share := 100
    calculated_by := 1, distributed := false }

/-- A store with two active zero-contribution members and `calcD`. -/
def dbD : DB :=
  { users := [{ id := 1, status := .ACTIVE }, { id := 2, status := .ACTIVE }]
    savings := [], loans := [], paymentSchedules := []
    shuCalculations := [calcD], shuDistributions := [] }

/-- Witness for C3 on the concrete store `dbD`: two active members with
zero contributions each receive 100 / 2. -/
theorem distributeSHU_shares_sum_to_total_witness :
    ∃ rows db2, distributeSHU dbD 1 0 = (.ok rows, db2) ∧
      rows.length = (activeMembers dbD).length ∧
      rows.map SHUDistributionRec.user_id
        = (activeMembers dbD).map UserRec.id ∧
      (rows.map SHUDistributionRec.share_amount).sum
        = calcD.total_member_share ∧
      ((∀ m ∈ activeMembers dbD, memberContribution dbD m.id = 0) →
        ∀ r ∈ rows, r.share_amount
          = calcD.total_member_share / ((activeMembers dbD).length : ℚ)) :=
  distributeSHU_shares_sum_to_total dbD 1 0 calcD [] (by decide) rfl
    (by decide)

end Koperasi
